import Mathlib

/-!
Shallow embedding of `devpi-upload-testresult.py`: a CLI tool that uploads
tox JSON test reports to the unique sdist of a package on a devpi index.

The embedding models:
  - `is_valid_json` (report validation: extension filter + JSON parse +
    `toxversion` marker check),
  - `iter_path` / `gen_json_list` (report discovery over a filesystem tree,
    with the recursive flag),
  - `latest_sdist` (artifact resolution with index-reference validation,
    version lookup and the single-sdist requirement),
  - `upload_result` (per-report upload, dry-run handling and status checks),
  - the batch loop of `main`.

External collaborators (the devpi hub, `json.loads` combined with
`Path.read_text`, the HTTP transport, `get_matching_versioninfo`,
`find_sdist_and_wheels`) are modelled as oracle parameters: a file carries
the `Option Json` result of reading-and-parsing it, the network is a
function from request to status code, and the resolution environment
carries the lookup results.  Side effects (diagnostics, network calls,
uncaught exceptions) are made explicit in return values.
-/

/-- JSON values, the abstract result of `json.loads`.  An `obj` is a keyed
mapping (Python `dict`), an `arr` a Python `list`. -/
inductive Json : Type where
  | null : Json
  | bool (b : Bool) : Json
  | num (n : Int) : Json
  | str (s : String) : Json
  | arr (elems : List Json) : Json
  | obj (entries : List (String × Json)) : Json
deriving Repr

/-- Python `isinstance(jsondata, dict)`. -/
def Json.isDict : Json → Bool
  | .obj _ => true
  | _ => false

/-- Python `key in jsondata` for a dict: membership among the top-level keys. -/
def Json.hasKey (j : Json) (key : String) : Bool :=
  match j with
  | .obj entries => entries.any (fun kv => kv.1 = key)
  | _ => false

/-- The parsed-argument namespace of the script: `--dry-run` (`simulate`),
`-r` alias `--recursive`, `--index`, the positional `pkgspec`, and the verbosity
count (`-v`, truthy when nonzero, as Python tests `if hub_args.verbose:`). -/
structure HubArgs : Type where
  verbose : Nat
  simulate : Bool
  recursive : Bool
  index : Option String
  pkgspec : String
deriving Repr, DecidableEq

/-- A diagnostic emitted through the hub: `hub.info`, `hub.warn`, `hub.error`.
(`hub.fatal` is modelled separately as an `Except.error`.) -/
inductive Diag : Type where
  | info (msg : String) : Diag
  | warn (msg : String) : Diag
  | err (msg : String) : Diag
deriving Repr, DecidableEq

/-- Python `pathlib.PurePath.suffix` on the final path component `name`:
`i = name.rfind('.'); return name[i:] if 0 < i < len(name) - 1 else ''`.
In particular `".json"` and `"foo."` have empty suffix. -/
def pySuffix (name : String) : String :=
  let cs := name.toList
  match cs.reverse.findIdx? (fun c => c = '.') with
  | none => ""
  | some j =>
    let i := cs.length - 1 - j
    if 0 < i ∧ i < cs.length - 1 then String.mk (cs.drop i) else ""

example : pySuffix "a.json" = ".json" := by decide
example : pySuffix "archive.tar.json" = ".json" := by decide
example : pySuffix ".json" = "" := by decide
example : pySuffix "foo." = "" := by decide
example : pySuffix "data.txt" = ".txt" := by decide
example : pySuffix "x.JSON" = ".JSON" := by decide

/-- `is_valid_json` with an execution trace.  `name` is the final path
component, `readParsed` the oracle for `json.loads(path.read_text(...))`:
`none` when reading or parsing raises (nonexistent file, bad encoding,
invalid JSON), `some j` when it yields `j`.  Returns
`(result, readAttempted)`:

    if path.suffix != '.json': return False        -- no read attempted
    try: jsondata = json.loads(path.read_text(encoding='utf8'))
    except: return False
    else: return isinstance(jsondata, dict) and "toxversion" in jsondata
-/
def is_valid_json_t (name : String) (readParsed : Option Json) : Bool × Bool :=
  if pySuffix name ≠ ".json" then (false, false)
  else
    match readParsed with
    | none => (false, true)
    | some jsondata => (jsondata.isDict && jsondata.hasKey "toxversion", true)

/-- The Boolean result of `is_valid_json`. -/
def is_valid_json (name : String) (readParsed : Option Json) : Bool :=
  (is_valid_json_t name readParsed).1

example : is_valid_json "a.json" (some (Json.obj [("toxversion", Json.str "4.0")])) = true := by
  decide
example : is_valid_json "a.json" (some (Json.obj [("foo", Json.num 1)])) = false := by decide
example : is_valid_json "a.json" (some (Json.arr [])) = false := by decide
example : is_valid_json "a.json" none = false := by decide
example : is_valid_json_t "notes.txt" none = (false, false) := by decide

mutual
/-- A node of the (static) filesystem seen by discovery.  A `file` carries
the oracle result of reading-and-parsing it (cf. `is_valid_json_t`); a
`dir` carries its children in `iterdir` order; `special` is a path that
exists but is neither a regular file nor a directory (fifo, socket, device),
for which both `p.is_file()` and `p.is_dir()` are false. -/
inductive FSNode : Type where
  | file (name : String) (readParsed : Option Json) : FSNode
  | dir (name : String) (children : FSForest) : FSNode
  | special (name : String) : FSNode
/-- A list of sibling filesystem nodes (`iterdir` order). -/
inductive FSForest : Type where
  | nil : FSForest
  | cons (hd : FSNode) (tl : FSForest) : FSForest
end

/-- The final path component of a node. -/
def FSNode.name : FSNode → String
  | .file n _ => n
  | .dir n _ => n
  | .special n => n

/-- Joining a directory path and a child name for display purposes
(Python builds child paths via `path.iterdir()`). -/
def pathJoin (pfx name : String) : String :=
  if pfx = "" then name else pfx ++ "/" ++ name

mutual

/-- `iter_path(hub, path)`: yield a file iff `is_valid_json` accepts it
(with an info diagnostic when verbose); descend into a directory only when
`--recursive`; yield nothing for anything else.  Returns the yielded nodes
and the diagnostics, in order; `pfx` is the display path of the parent. -/
def iter_path (args : HubArgs) (pfx : String) : FSNode → List FSNode × List Diag
  | .file name readParsed =>
    if is_valid_json name readParsed then
      ([FSNode.file name readParsed],
        if args.verbose ≠ 0 then
          [Diag.info ("Discovered report file '" ++ pathJoin pfx name ++ "'")]
        else [])
    else ([], [])
  | .dir name children =>
    if args.recursive then iter_children args (pathJoin pfx name) children
    else ([], [])
  | .special _ => ([], [])

/-- `for child in path.iterdir(): yield from iter_path(hub, child)`. -/
def iter_children (args : HubArgs) (pfx : String) : FSForest → List FSNode × List Diag
  | .nil => ([], [])
  | .cons c cs =>
    let r := iter_path args pfx c
    let rest := iter_children args pfx cs
    (r.1 ++ rest.1, r.2 ++ rest.2)
end

/-- `gen_json_list(hub, paths)`: for each input path (already confirmed to
exist by `main`), a file is yielded when valid and warned about when not;
a directory's children are expanded through `iter_path`; any other path is
silently dropped. -/
def gen_json_list (args : HubArgs) : List FSNode → List FSNode × List Diag
  | [] => ([], [])
  | p :: ps =>
    let r : List FSNode × List Diag :=
      match p with
      | .file name readParsed =>
        if is_valid_json name readParsed then
          ([FSNode.file name readParsed],
            if args.verbose ≠ 0 then
              [Diag.info ("Discovered report file '" ++ name ++ "'")]
            else [])
        else
          ([], [Diag.warn ("Ignoring file '" ++ name ++ "', does not contain valid tox JSON result")])
      | .dir name children => iter_children args name children
      | .special _ => ([], [])
    let rest := gen_json_list args ps
    (r.1 ++ rest.1, r.2 ++ rest.2)

/-- A release-file link as shown by devpi (`devpi_common.viewhelp.ViewLink`):
a plain object, not a `str` subclass.  `href` is the download URL;
`display` is what `str(link)` would render — though nothing in the
relevant code path ever calls it, since `str.join` requires genuine `str`
items and does not coerce. -/
structure ViewLink : Type where
  href : String
  display : String
deriving Repr, DecidableEq

/-- Python `s.startswith(p)` (also the semantics of a
`startswith((p1, p2))` member test): the characters of `p` are an initial
segment of those of `s`. -/
def pyStartsWith (s p : String) : Bool :=
  s.toList.take p.toList.length = p.toList

example : pyStartsWith "http://h/i" "http:" = true := by decide
example : pyStartsWith "https://h/i" "http:" = false := by decide
example : pyStartsWith "a/b/c" "http:" = false := by decide

/-- Number of occurrences of `/` in a string: Python `index.count("/")`. -/
def countSlash (s : String) : Nat :=
  (s.toList.filter (fun c => c = '/')).length

example : countSlash "user/name" = 1 := by decide
example : countSlash "a/b/c" = 2 := by decide

/-- Oracle for the external devpi collaborators used by `latest_sdist`:
`get_matching_versioninfo i` is `none` when no version matches (falsy
result), `some links` the `get_links("releasefile")` list of the matching
versioninfo; `find_sdist_and_wheels links` is the sdist component of
`devpi.test.find_sdist_and_wheels(hub, links, universal_only=True)`. -/
structure ResolveEnv : Type where
  get_matching_versioninfo : Option String → Option (List ViewLink)
  find_sdist_and_wheels : List ViewLink → List ViewLink

/-- A network-touching operation performed during resolution. -/
inductive NetOp : Type where
  | switch_to_temporary (url : String) : NetOp
  | version_lookup (index : Option String) : NetOp
deriving Repr, DecidableEq

/-- How `latest_sdist` terminates abnormally: `fatal msg` is `hub.fatal`
(prints `msg` and raises `SystemExit`), `uncaught exn` is any other
exception escaping the function — the process dies with a traceback and
no diagnostic message of its own. -/
inductive ResolveErr : Type where
  | fatal (msg : String) : ResolveErr
  | uncaught (exn : String) : ResolveErr
deriving Repr, DecidableEq

/-- Python `os.linesep.join(msgs)` for `msgs` as the source builds it:
the header string followed by the `ViewLink` OBJECTS themselves
(`msgs.extend(sdist_links)` appends the links, not their renderings).
`str.join` accepts only genuine `str` items — it never calls `__str__` —
and raises `TypeError` at the first object item, so the join succeeds
(yielding just the header, with `os.linesep` never interposed) exactly
when the candidate list is empty. -/
def linesep_join_header_links (header : String) (sdist_links : List ViewLink) :
    Except String String :=
  match sdist_links with
  | [] => Except.ok header
  | _ :: _ =>
    Except.error "TypeError: sequence item 1: expected str instance, ViewLink found"

/-- The tail of `latest_sdist` after index-reference validation: version
lookup, releasefile check, sdist filtering and the `more_itertools.one`
call.  `one` raises on zero or several elements; the bare `except` then
builds `msgs` (header plus the candidate objects) and calls
`hub.fatal(os.linesep.join(msgs))` — but the join itself raises
`TypeError` whenever a candidate object is present, which escapes the
handler uncaught.  `ops0` holds the operations already performed by the
index-handling step. -/
def resolve_with_index (args : HubArgs) (env : ResolveEnv) (index : Option String)
    (ops0 : List NetOp) : Except ResolveErr ViewLink × List NetOp :=
  let ops := ops0 ++ [NetOp.version_lookup index]
  match env.get_matching_versioninfo index with
  | none =>
    (Except.error (ResolveErr.fatal
      ("No matching package version for '" ++ args.pkgspec ++ "'")), ops)
  | some links =>
    if links.isEmpty then
      (Except.error (ResolveErr.fatal
        ("No releasefile found for '" ++ args.pkgspec ++ "'")), ops)
    else
      let sdist_links := env.find_sdist_and_wheels links
      match sdist_links with
      | [l] => (Except.ok l, ops)
      | _ =>
        (match linesep_join_header_links
            ("Multiple sdists found matching '" ++ args.pkgspec ++ "'") sdist_links with
          | Except.ok msg => Except.error (ResolveErr.fatal msg)
          | Except.error exn => Except.error (ResolveErr.uncaught exn), ops)

/-- `latest_sdist(hub)`.  A clean `hub.fatal` and an uncaught exception
are both modelled as `Except.error` (see `ResolveErr`; nothing after
either runs); the second component lists the network-touching operations
performed, in order.  Index handling: a truthy `--index` starting with
`http:`/`https:` switches to a temporary index (and clears the index
argument); otherwise more than one `/` is fatal before anything else;
all remaining forms are passed to the version lookup unchanged. -/
def latest_sdist (args : HubArgs) (env : ResolveEnv) :
    Except ResolveErr ViewLink × List NetOp :=
  match args.index with
  | none => resolve_with_index args env none []
  | some s =>
    if s.isEmpty then resolve_with_index args env (some s) []
    else if pyStartsWith s "http:" || pyStartsWith s "https:" then
      resolve_with_index args env none [NetOp.switch_to_temporary s]
    else if countSlash s > 1 then
      (Except.error (ResolveErr.fatal
        ("index '" ++ s ++ "' not of form URL, USER/NAME or NAME")), [])
    else resolve_with_index args env (some s) []

/-- The effective index argument reaching the version lookup, mirroring the
index-handling step of `latest_sdist`: `none` means resolution is fatal at
this step; `some idx` means the lookup runs with index argument `idx`. -/
def effective_index : Option String → Option (Option String)
  | none => some none
  | some s =>
    if s.isEmpty then some (some s)
    else if pyStartsWith s "http:" || pyStartsWith s "https:" then some none
    else if countSlash s > 1 then none
    else some (some s)

/-- `devpi_common.url.URL.url_nofrag`: the URL with any `#fragment`
stripped, i.e. the characters before the first `#`. -/
def url_nofrag (u : String) : String :=
  String.mk (u.toList.takeWhile (fun c => c ≠ '#'))

example : url_nofrag "http://h/p#sha256=ab" = "http://h/p" := by decide
example : url_nofrag "http://h/p" = "http://h/p" := by decide

/-- Outcome of `upload_result` for one report, the spec's `UploadOutcome`
abstraction of the code paths: `posted` = status-200 branch, `failed` =
`hub.error` branch, `skippedSimulated` = early `return` under `--dry-run`. -/
inductive UploadOutcome : Type where
  | posted : UploadOutcome
  | failed : UploadOutcome
  | skippedSimulated : UploadOutcome
deriving Repr, DecidableEq

/-- One `hub.http_api` call: `hub.http_api("post", href, kvdict=jsondata)`. -/
structure NetCall : Type where
  method : String
  href : String
  kvdict : Json
deriving Repr

/-- What one `upload_result` call produced: its outcome, the network calls
it made and the diagnostics it emitted. -/
structure UploadRes : Type where
  outcome : UploadOutcome
  calls : List NetCall
  diags : List Diag
deriving Repr

/-- `upload_result(hub, url, path)`.  `respond` is the transport oracle
giving the HTTP status code of a request; `readParsed` is the oracle for
`json.loads(path.read_text())` at call time (`none` when it raises).  The
read-and-parse happens first and is NOT guarded by any `try`: a failure is
an uncaught exception, modelled as `Except.error ()`. -/
def upload_result (args : HubArgs) (respond : NetCall → Nat) (url : String)
    (name : String) (readParsed : Option Json) : Except Unit UploadRes :=
  let href := url_nofrag url
  match readParsed with
  | none => Except.error ()
  | some jsondata =>
    let d0 : List Diag :=
      if args.verbose ≠ 0 then
        [Diag.info ("Posting tox report '" ++ name ++ "' to sdist")]
      else []
    if args.simulate then
      Except.ok ⟨UploadOutcome.skippedSimulated, [], d0⟩
    else
      let call : NetCall := ⟨"post", href, jsondata⟩
      if respond call = 200 then
        Except.ok ⟨UploadOutcome.posted, [call],
          d0 ++ (if args.verbose ≠ 0 then
            [Diag.info ("Successfully posted tox report '" ++ name ++ "'")]
          else [])⟩
      else
        Except.ok ⟨UploadOutcome.failed, [call],
          d0 ++ [Diag.err ("Could not post tox report '" ++ name ++ "' to '" ++ href ++ "'")]⟩

/-- The outcome of an `upload_result` call, `none` when it raised. -/
def outcomeOf (r : Except Unit UploadRes) : Option UploadOutcome :=
  match r with
  | Except.ok u => some u.outcome
  | Except.error _ => none

/-- The network calls of an `upload_result` call, `none` when it raised. -/
def callsOf (r : Except Unit UploadRes) : Option (List NetCall) :=
  match r with
  | Except.ok u => some u.calls
  | Except.error _ => none

/-- The diagnostics of an `upload_result` call, `none` when it raised. -/
def diagsOf (r : Except Unit UploadRes) : Option (List Diag) :=
  match r with
  | Except.ok u => some u.diags
  | Except.error _ => none

/-- The upload loop of `main`: `for f in gen_json_list(hub, paths):
upload_result(hub, url, f)`.  Each report is a (name, read-result) pair
read at call time.  An uncaught exception from `upload_result` aborts the
loop: no later file is processed.  Also returns the network calls actually
made. -/
def run_uploads (args : HubArgs) (respond : NetCall → Nat) (url : String) :
    List (String × Option Json) → Except Unit (List UploadRes) × List NetCall
  | [] => (Except.ok [], [])
  | (n, rp) :: rest =>
    match upload_result args respond url n rp with
    | Except.error e => (Except.error e, [])
    | Except.ok r =>
      let tail := run_uploads args respond url rest
      ((tail.1).map (fun rs => r :: rs), r.calls ++ tail.2)

/-- Result of one whole invocation of the tool. -/
inductive MainResult : Type where
  | fatal (msg : String) : MainResult
  | crashed : MainResult
  | finished (outcomes : List UploadRes) : MainResult
deriving Repr

/-- Name and read-result of a node handed to `upload_result` (only file
nodes are ever yielded by discovery). -/
def nodeNameParsed : FSNode → String × Option Json
  | .file n rp => (n, rp)
  | .dir n _ => (n, none)
  | .special n => (n, none)

/-- The body of `main` after argument parsing and path existence filtering:
resolve the sdist once; a fatal resolution error or an exception escaping
resolution stops the run (no discovery, no upload); otherwise feed every
discovered report to `upload_result` against `URL(sdist.href)`.  Returns
the overall result, the resolution-time network operations and the
upload-time POST calls. -/
def main_model (args : HubArgs) (env : ResolveEnv) (respond : NetCall → Nat)
    (paths : List FSNode) : MainResult × List NetOp × List NetCall :=
  let r := latest_sdist args env
  match r.1 with
  | Except.error (ResolveErr.fatal m) => (MainResult.fatal m, r.2, [])
  | Except.error (ResolveErr.uncaught _) => (MainResult.crashed, r.2, [])
  | Except.ok sdist =>
    let files := (gen_json_list args paths).1
    let u := run_uploads args respond sdist.href (files.map nodeNameParsed)
    (match u.1 with
      | Except.ok rs => MainResult.finished rs
      | Except.error _ => MainResult.crashed, r.2, u.2)

/-- A node is a file accepted by the validator. -/
def isValidReportNode : FSNode → Bool
  | .file n rp => is_valid_json n rp
  | _ => false

/-- A diagnostic is an informational (non-warning, non-error) one. -/
def isInfoDiag : Diag → Bool
  | .info _ => true
  | _ => false

/-- Modelled from the spec: non-recursive discovery over a directory
"yields exactly the valid-report immediate children and ignores nested
subdirectories entirely". -/
def immediateValidChildren : FSForest → List FSNode
  | .nil => []
  | .cons c cs =>
    (match c with
      | FSNode.file n rp => if is_valid_json n rp then [FSNode.file n rp] else []
      | _ => []) ++ immediateValidChildren cs

mutual

/-- Modelled from the spec: recursive discovery "yields every valid report
at any depth", depth-first, for a single node. -/
def subtreeValidReports : FSNode → List FSNode
  | .file n rp => if is_valid_json n rp then [FSNode.file n rp] else []
  | .dir _ cs => subtreeValidReportsF cs
  | .special _ => []

/-- Forest version of `subtreeValidReports`, in sibling order. -/
def subtreeValidReportsF : FSForest → List FSNode
  | .nil => []
  | .cons c cs => subtreeValidReports c ++ subtreeValidReportsF cs

end

/-- With `--recursive` unset, `iter_children` yields exactly the valid
immediate file children: directory children produce nothing because
`iter_path` refuses to descend. -/
theorem iter_children_nonrec (args : HubArgs) (pfx : String) (h : args.recursive = false) :
    (f : FSForest) → (iter_children args pfx f).1 = immediateValidChildren f
  | FSForest.nil => by simp [iter_children, immediateValidChildren]
  | FSForest.cons c cs => by
    have ih := iter_children_nonrec args pfx h cs
    cases c with
    | file n rp =>
      by_cases hv : is_valid_json n rp <;>
        simp [iter_children, immediateValidChildren, iter_path, hv, ih]
    | dir n cs2 => simp [iter_children, immediateValidChildren, iter_path, h, ih]
    | special n => simp [iter_children, immediateValidChildren, iter_path, ih]

mutual

/-- With `--recursive` set, `iter_path` yields exactly the subtree's valid
report files, depth-first. -/
theorem iter_path_rec (args : HubArgs) (h : args.recursive = true) :
    (pfx : String) → (n : FSNode) → (iter_path args pfx n).1 = subtreeValidReports n
  | pfx, FSNode.file nm rp => by
    by_cases hv : is_valid_json nm rp <;> simp [iter_path, subtreeValidReports, hv]
  | pfx, FSNode.dir nm cs => by
    have ih := iter_children_rec args h (pathJoin pfx nm) cs
    simp [iter_path, subtreeValidReports, h, ih]
  | pfx, FSNode.special nm => by simp [iter_path, subtreeValidReports]

/-- Forest version of `iter_path_rec`. -/
theorem iter_children_rec (args : HubArgs) (h : args.recursive = true) :
    (pfx : String) → (f : FSForest) → (iter_children args pfx f).1 = subtreeValidReportsF f
  | pfx, FSForest.nil => by simp [iter_children, subtreeValidReportsF]
  | pfx, FSForest.cons c cs => by
    have ih1 := iter_path_rec args h pfx c
    have ih2 := iter_children_rec args h pfx cs
    simp [iter_children, subtreeValidReportsF, ih1, ih2]

end

mutual

/-- Everything `iter_path` yields is a validator-accepted file. -/
theorem iter_path_yields_valid (args : HubArgs) :
    (pfx : String) → (n : FSNode) → ∀ m ∈ (iter_path args pfx n).1, isValidReportNode m = true
  | pfx, FSNode.file nm rp => by
    by_cases hv : is_valid_json nm rp <;>
      simp [iter_path, hv, isValidReportNode]
  | pfx, FSNode.dir nm cs => by
    have ih := iter_children_yields_valid args (pathJoin pfx nm) cs
    by_cases hr : args.recursive <;> simp_all [iter_path]
  | pfx, FSNode.special nm => by simp [iter_path]

/-- Forest version of `iter_path_yields_valid`. -/
theorem iter_children_yields_valid (args : HubArgs) :
    (pfx : String) → (f : FSForest) → ∀ m ∈ (iter_children args pfx f).1, isValidReportNode m = true
  | pfx, FSForest.nil => by simp [iter_children]
  | pfx, FSForest.cons c cs => by
    have ih1 := iter_path_yields_valid args pfx c
    have ih2 := iter_children_yields_valid args pfx cs
    intro m hm
    simp only [iter_children, List.mem_append] at hm
    rcases hm with hm | hm
    · exact ih1 m hm
    · exact ih2 m hm

end

mutual

/-- `iter_path` emits only informational diagnostics: invalid files inside
a directory are skipped silently (no warning), and subdirectories are
never reported as errors. -/
theorem iter_path_diags_info (args : HubArgs) :
    (pfx : String) → (n : FSNode) → ∀ d ∈ (iter_path args pfx n).2, isInfoDiag d = true
  | pfx, FSNode.file nm rp => by
    by_cases hv : is_valid_json nm rp <;>
      by_cases hb : args.verbose = 0 <;>
        simp [iter_path, hv, hb, isInfoDiag]
  | pfx, FSNode.dir nm cs => by
    have ih := iter_children_diags_info args (pathJoin pfx nm) cs
    by_cases hr : args.recursive <;> simp_all [iter_path]
  | pfx, FSNode.special nm => by simp [iter_path]

/-- Forest version of `iter_path_diags_info`. -/
theorem iter_children_diags_info (args : HubArgs) :
    (pfx : String) → (f : FSForest) → ∀ d ∈ (iter_children args pfx f).2, isInfoDiag d = true
  | pfx, FSForest.nil => by simp [iter_children]
  | pfx, FSForest.cons c cs => by
    have ih1 := iter_path_diags_info args pfx c
    have ih2 := iter_children_diags_info args pfx cs
    intro d hd
    simp only [iter_children, List.mem_append] at hd
    rcases hd with hd | hd
    · exact ih1 d hd
    · exact ih2 d hd

end

/-- `gen_json_list` distributes over concatenation of the input path list
(the generator processes inputs independently, in order). -/
theorem gen_json_list_append (args : HubArgs) (ps qs : List FSNode) :
    gen_json_list args (ps ++ qs)
      = ((gen_json_list args ps).1 ++ (gen_json_list args qs).1,
         (gen_json_list args ps).2 ++ (gen_json_list args qs).2) := by
  induction ps with
  | nil => simp [gen_json_list]
  | cons p ps ih => simp [gen_json_list, ih]

/-- A minimal genuine tox report document: `{"toxversion": "4.0"}`. -/
def reportJson : Json := Json.obj [("toxversion", Json.str "4.0")]

/-- A syntactically valid JSON document that is not a tox report. -/
def nonReportJson : Json := Json.obj [("foo", Json.num 1)]

/-- Concrete non-recursive, non-verbose argument namespace. -/
def argsPlain : HubArgs :=
  { verbose := 0, simulate := false, recursive := false, index := none, pkgspec := "demo" }

/-- Concrete recursive argument namespace. -/
def argsRec : HubArgs :=
  { verbose := 0, simulate := false, recursive := true, index := none, pkgspec := "demo" }

/-- Concrete directory content: a valid report, a subdirectory holding
another valid report, and a non-report text file. -/
def forestDemo : FSForest :=
  FSForest.cons (FSNode.file "a.json" (some reportJson))
    (FSForest.cons
      (FSNode.dir "sub" (FSForest.cons (FSNode.file "b.json" (some reportJson)) FSForest.nil))
      (FSForest.cons (FSNode.file "notes.txt" none) FSForest.nil))

/-- C6: for every directory argument, discovery with `recursive = false`
yields exactly the validator-accepted immediate file children and ignores
child directories entirely (no descent, no error), while `recursive = true`
yields every validator-accepted file at any depth of the subtree in
depth-first order; in both cases invalid files inside the directory are
skipped silently (only informational diagnostics are emitted). -/
theorem spec_c6_directory_discovery (args : HubArgs) (dname : String) (cs : FSForest) :
    (gen_json_list args [FSNode.dir dname cs]).1
      = (if args.recursive then subtreeValidReportsF cs else immediateValidChildren cs)
    ∧ ∀ d ∈ (gen_json_list args [FSNode.dir dname cs]).2, isInfoDiag d = true := by
  constructor
  · by_cases hr : args.recursive
    · simp [gen_json_list, hr, iter_children_rec args hr dname cs]
    · simp [gen_json_list, hr,
        iter_children_nonrec args dname (by simpa using hr) cs]
  · intro d hd
    simp only [gen_json_list, List.append_nil] at hd
    exact iter_children_diags_info args dname cs d hd

/-- Witness for C6 at a concrete directory: non-recursively only the
valid immediate child `a.json` is yielded; recursively `b.json` inside
`sub` is found as well. -/
theorem spec_c6_directory_discovery_witness :
    (gen_json_list argsPlain [FSNode.dir "reports" forestDemo]).1
      = [FSNode.file "a.json" (some reportJson)]
    ∧ (gen_json_list argsRec [FSNode.dir "reports" forestDemo]).1
      = [FSNode.file "a.json" (some reportJson), FSNode.file "b.json" (some reportJson)] := by
  have h1 := (spec_c6_directory_discovery argsPlain "reports" forestDemo).1
  have h2 := (spec_c6_directory_discovery argsRec "reports" forestDemo).1
  constructor
  · rw [h1]
    simp [argsPlain, forestDemo, immediateValidChildren, is_valid_json, is_valid_json_t,
      reportJson, Json.isDict, Json.hasKey, pySuffix]
  · rw [h2]
    simp [argsRec, forestDemo, subtreeValidReportsF, subtreeValidReports, is_valid_json,
      is_valid_json_t, reportJson, Json.isDict, Json.hasKey, pySuffix]

/-- C7: for every path whose suffix is not exactly `.json` (case-sensitive),
`is_valid_json` returns false and never attempts to read the file — the
trace records `(result, readAttempted) = (false, false)` regardless of what
reading would yield (in particular for a nonexistent file, whose read
oracle is `none`, no missing-file error can be raised). -/
theorem spec_c7_wrong_suffix_no_read (name : String) (readParsed : Option Json)
    (h : pySuffix name ≠ ".json") :
    is_valid_json_t name readParsed = (false, false) := by
  simp [is_valid_json_t, h]

/-- Witness for C7: `data.txt` has suffix `.txt`, and validation of a
nonexistent `data.txt` returns false without any read. -/
theorem spec_c7_wrong_suffix_no_read_witness :
    pySuffix "data.txt" ≠ ".json" ∧ is_valid_json_t "data.txt" none = (false, false) :=
  ⟨by decide, spec_c7_wrong_suffix_no_read "data.txt" none (by decide)⟩

/-- C8: for every path with the `.json` suffix, `is_valid_json` returns
true iff reading-and-parsing the file succeeds with a keyed mapping (a
`dict`, not an array or scalar) containing the `toxversion` marker key; on
any read or parse failure (read oracle `none`) it returns false, and being
a total function it never raises past its boundary. -/
theorem spec_c8_marker_validation (name : String) (readParsed : Option Json)
    (h : pySuffix name = ".json") :
    is_valid_json name readParsed = true
      ↔ ∃ j, readParsed = some j ∧ j.isDict = true ∧ j.hasKey "toxversion" = true := by
  cases readParsed with
  | none => simp [is_valid_json, is_valid_json_t, h]
  | some j => simp [is_valid_json, is_valid_json_t, h, Bool.and_eq_true]

/-- Witness for C8: `a.json` containing `{"toxversion": "4.0"}` validates;
the same name with a failed read does not. -/
theorem spec_c8_marker_validation_witness :
    pySuffix "a.json" = ".json"
    ∧ is_valid_json "a.json" (some reportJson) = true
    ∧ is_valid_json "a.json" none = false := by
  refine ⟨by decide, ?_, ?_⟩
  · exact (spec_c8_marker_validation "a.json" (some reportJson) (by decide)).mpr
      ⟨reportJson, rfl, by decide, by decide⟩
  · have h := spec_c8_marker_validation "a.json" none (by decide)
    by_contra hc
    simp only [Bool.not_eq_false] at hc
    rcases h.mp hc with ⟨j, hj, _⟩
    exact Option.noConfusion hj

/-- C9: every node yielded by the discovery sequence (`gen_json_list`,
including its recursive traversal through `iter_path`) is a file accepted
by `is_valid_json` — a `.json` file whose contents parsed to a mapping
containing the `toxversion` marker; discovery never yields a path the
validator rejects. -/
theorem spec_c9_discovery_yields_valid (args : HubArgs) (paths : List FSNode) :
    ∀ m ∈ (gen_json_list args paths).1, isValidReportNode m = true := by
  induction paths with
  | nil => simp [gen_json_list]
  | cons p ps ih =>
    intro m hm
    cases p with
    | file n rp =>
      by_cases hv : is_valid_json n rp
      · simp only [gen_json_list, hv, if_true, List.mem_append, List.mem_singleton] at hm
        rcases hm with hm | hm
        · subst hm; simpa [isValidReportNode] using hv
        · exact ih m hm
      · simp only [gen_json_list, hv, if_false, List.nil_append] at hm
        exact ih m hm
    | dir n cs =>
      simp only [gen_json_list, List.mem_append] at hm
      rcases hm with hm | hm
      · exact iter_children_yields_valid args n cs m hm
      · exact ih m hm
    | special n =>
      simp only [gen_json_list, List.nil_append] at hm
      exact ih m hm

/-- Witness for C9: on the demo directory every recursively discovered
node validates. -/
theorem spec_c9_discovery_yields_valid_witness :
    isValidReportNode (FSNode.file "a.json" (some reportJson)) = true := by
  have h := spec_c9_discovery_yields_valid argsRec [FSNode.dir "reports" forestDemo]
  refine h (FSNode.file "a.json" (some reportJson)) ?_
  simp [gen_json_list, iter_children, iter_path, forestDemo, argsRec, pathJoin,
    is_valid_json, is_valid_json_t, reportJson, Json.isDict, Json.hasKey, pySuffix]

/-- C10: a file argument rejected by the validator produces exactly one
warning diagnostic naming it, whereas an existing input path that is
neither a regular file nor a directory is dropped by `gen_json_list` with
no yielded result and no diagnostic of any kind (removing it from the
input list changes nothing). -/
theorem spec_c10_invalid_file_vs_special (args : HubArgs) (fname sname : String)
    (rp : Option Json) (ps qs : List FSNode) (h : is_valid_json fname rp = false) :
    gen_json_list args [FSNode.file fname rp]
      = ([], [Diag.warn ("Ignoring file '" ++ fname ++ "', does not contain valid tox JSON result")])
    ∧ gen_json_list args (ps ++ FSNode.special sname :: qs) = gen_json_list args (ps ++ qs) := by
  constructor
  · simp [gen_json_list, h]
  · have hsp : FSNode.special sname :: qs = [FSNode.special sname] ++ qs := rfl
    rw [gen_json_list_append, hsp, gen_json_list_append, gen_json_list_append]
    simp [gen_json_list]

/-- Witness for C10: `b.json` with non-report content draws the warning,
and a fifo `pipe` between two inputs leaves the output unchanged. -/
theorem spec_c10_invalid_file_vs_special_witness :
    gen_json_list argsPlain [FSNode.file "b.json" (some nonReportJson)]
      = ([], [Diag.warn "Ignoring file 'b.json', does not contain valid tox JSON result"])
    ∧ gen_json_list argsPlain
        ([FSNode.file "a.json" (some reportJson)] ++ FSNode.special "pipe"
          :: [FSNode.file "b.json" (some nonReportJson)])
      = gen_json_list argsPlain
        ([FSNode.file "a.json" (some reportJson)] ++ [FSNode.file "b.json" (some nonReportJson)]) := by
  have h := spec_c10_invalid_file_vs_special argsPlain "b.json" "pipe" (some nonReportJson)
    [FSNode.file "a.json" (some reportJson)] [FSNode.file "b.json" (some nonReportJson)]
    (by decide)
  exact h

/-- The resolution verdict of `resolve_with_index` does not depend on the
operations already recorded. -/
theorem resolve_with_index_fst_ops (args : HubArgs) (env : ResolveEnv) (idx : Option String)
    (ops0 ops1 : List NetOp) :
    (resolve_with_index args env idx ops0).1 = (resolve_with_index args env idx ops1).1 := by
  unfold resolve_with_index
  cases env.get_matching_versioninfo idx with
  | none => rfl
  | some links =>
    by_cases h : links.isEmpty
    · simp [h]
    · simp only [h, Bool.false_eq_true, if_false]
      cases env.find_sdist_and_wheels links with
      | nil => rfl
      | cons a tl => cases tl <;> rfl

/-- When the index-handling step lets resolution proceed with effective
index `idx`, the verdict of `latest_sdist` is that of `resolve_with_index`
at `idx`. -/
theorem latest_sdist_effective (args : HubArgs) (env : ResolveEnv) (idx : Option String)
    (h : effective_index args.index = some idx) :
    (latest_sdist args env).1 = (resolve_with_index args env idx []).1 := by
  cases hix : args.index with
  | none =>
    rw [hix] at h
    simp only [effective_index, Option.some.injEq] at h
    subst h
    simp [latest_sdist, hix]
  | some s =>
    rw [hix] at h
    simp only [effective_index] at h
    by_cases he : s.isEmpty
    · rw [if_pos he] at h
      injection h with h
      subst h
      simp [latest_sdist, hix, he]
    · rw [if_neg he] at h
      by_cases hu : pyStartsWith s "http:" || pyStartsWith s "https:"
      · rw [if_pos hu] at h
        injection h with h
        subst h
        simp only [latest_sdist, hix]
        rw [if_neg he, if_pos hu]
        exact resolve_with_index_fst_ops args env none [NetOp.switch_to_temporary s] []
      · rw [if_neg hu] at h
        by_cases hc : countSlash s > 1
        · rw [if_pos hc] at h
          exact absurd h (by simp)
        · rw [if_neg hc] at h
          injection h with h
          subst h
          simp only [latest_sdist, hix]
          rw [if_neg he, if_neg hu, if_neg hc]

/-- A fatal resolution error stops the run: no discovery, no upload, no
POST call. -/
theorem main_model_fatal (args : HubArgs) (env : ResolveEnv) (respond : NetCall → Nat)
    (paths : List FSNode) (msg : String)
    (h : (latest_sdist args env).1 = Except.error (ResolveErr.fatal msg)) :
    main_model args env respond paths
      = (MainResult.fatal msg, (latest_sdist args env).2, []) := by
  simp only [main_model]
  rw [h]

/-- A tar.gz release link of the demo package. -/
def linkTar : ViewLink := ⟨"http://h/demo-1.0.tar.gz#sha256=aa", "demo-1.0.tar.gz"⟩

/-- A zip release link of the demo package. -/
def linkZip : ViewLink := ⟨"http://h/demo-1.0.zip", "demo-1.0.zip"⟩

/-- A resolution environment in which every lookup finds two source
distributions. -/
def envTwoSdists : ResolveEnv :=
  { get_matching_versioninfo := fun _ => some [linkTar, linkZip],
    find_sdist_and_wheels := fun links => links }

/-- A resolution environment in which the lookup finds release files but
the sdist filter keeps none of them. -/
def envNoSdists : ResolveEnv :=
  { get_matching_versioninfo := fun _ => some [linkZip],
    find_sdist_and_wheels := fun _ => [] }

/-- C3: the claim requires the fatal resolution error for a candidate set
of size zero or two-or-more to enumerate the conflicting candidate
identifiers, and the code plainly intends exactly that — it builds a
message list from a header and then appends every candidate — but it
appends the `ViewLink` OBJECTS, so `os.linesep.join(msgs)` raises
`TypeError` whenever at least one candidate exists: with two sdists the
invocation dies with an uncaught exception inside the bare `except:`
handler, and the intended enumerated fatal message is never emitted
(though still before any upload POST); with zero sdists the join succeeds
but the resulting fatal message names no candidate.  This theorem
evaluates the embedding at both inputs. -/
theorem spec_c3_sdist_enumeration_bug :
    (latest_sdist argsPlain envTwoSdists).1
      = Except.error (ResolveErr.uncaught
          "TypeError: sequence item 1: expected str instance, ViewLink found")
    ∧ (main_model argsPlain envTwoSdists (fun _ => 200) []).1 = MainResult.crashed
    ∧ (main_model argsPlain envTwoSdists (fun _ => 200) []).2.2 = []
    ∧ (latest_sdist argsPlain envNoSdists).1
      = Except.error (ResolveErr.fatal "Multiple sdists found matching 'demo'")
    ∧ (main_model argsPlain envNoSdists (fun _ => 200) []).2.2 = [] :=
  ⟨rfl, rfl, rfl, rfl, rfl⟩

/-- C4: every non-empty `--index` reference that contains at least two `/`
separators and does not begin with `http:` or `https:` makes resolution
fail fatally at the index-validation step, before any version lookup or
other network-touching operation (the operation trace is empty), and the
whole invocation ends fatally with no POST. -/
theorem spec_c4_malformed_index (args : HubArgs) (env : ResolveEnv) (respond : NetCall → Nat)
    (paths : List FSNode) (s : String)
    (h1 : args.index = some s) (h2 : s ≠ "")
    (h3 : pyStartsWith s "http:" = false) (h4 : pyStartsWith s "https:" = false)
    (h5 : 2 ≤ countSlash s) :
    latest_sdist args env
      = (Except.error (ResolveErr.fatal
          ("index '" ++ s ++ "' not of form URL, USER/NAME or NAME")), [])
    ∧ main_model args env respond paths
      = (MainResult.fatal ("index '" ++ s ++ "' not of form URL, USER/NAME or NAME"), [], []) := by
  have he : ¬(s.isEmpty = true) := by
    simp only [String.isEmpty_iff]
    exact h2
  have hls : latest_sdist args env
      = (Except.error (ResolveErr.fatal
          ("index '" ++ s ++ "' not of form URL, USER/NAME or NAME")), []) := by
    simp only [latest_sdist, h1]
    rw [if_neg he, if_neg (by simp [h3, h4]), if_pos (by omega)]
  refine ⟨hls, ?_⟩
  have h6 : (latest_sdist args env).1
      = Except.error (ResolveErr.fatal
          ("index '" ++ s ++ "' not of form URL, USER/NAME or NAME")) := by
    rw [hls]
  rw [main_model_fatal args env respond paths _ h6, hls]

/-- An argument namespace with the over-qualified index reference `a/b/c`. -/
def argsBadIndex : HubArgs :=
  { verbose := 0, simulate := false, recursive := false, index := some "a/b/c",
    pkgspec := "demo" }

/-- Witness for C4: `--index a/b/c` is fatal with an empty operation trace
and no POST. -/
theorem spec_c4_malformed_index_witness :
    latest_sdist argsBadIndex envTwoSdists
      = (Except.error (ResolveErr.fatal "index 'a/b/c' not of form URL, USER/NAME or NAME"), [])
    ∧ main_model argsBadIndex envTwoSdists (fun _ => 200) []
      = (MainResult.fatal "index 'a/b/c' not of form URL, USER/NAME or NAME", [], []) := by
  have h := spec_c4_malformed_index argsBadIndex envTwoSdists (fun _ => 200) [] "a/b/c"
    rfl (by decide) (by decide) (by decide) (by decide)
  exact h

/-- Counterexample to C1 as stated: `upload_result` does not guard
`json.loads(path.read_text())` with any handler, so when reading or
parsing fails at upload time there is no per-file `failed` outcome and no
diagnostic naming the file (`outcomeOf = none`: the exception escapes),
and a batch holding a failing first report and a perfectly good second one
aborts — the second report is never processed and no POST is made. -/
theorem spec_c1_parse_failure_cex :
    outcomeOf (upload_result argsPlain (fun _ => 200) "http://h/demo-1.0.tar.gz"
      "bad.json" none) = none
    ∧ run_uploads argsPlain (fun _ => 200) "http://h/demo-1.0.tar.gz"
        [("bad.json", none), ("good.json", some reportJson)]
      = (Except.error (), []) :=
  ⟨rfl, rfl⟩

/-- C1 amended: if reading or parsing a report fails at upload time inside
`upload_result`, the exception propagates uncaught — the file gets no
outcome and no diagnostic, and the remaining report files of the batch are
not processed (the run aborts with no further POST). -/
theorem spec_c1_parse_failure_aborts (args : HubArgs) (respond : NetCall → Nat)
    (url fname : String) (rest : List (String × Option Json)) :
    upload_result args respond url fname none = Except.error ()
    ∧ run_uploads args respond url ((fname, none) :: rest) = (Except.error (), []) := by
  constructor
  · rfl
  · simp [run_uploads, upload_result]

/-- Witness for C1 (amended) at a concrete failing batch. -/
theorem spec_c1_parse_failure_aborts_witness :
    upload_result argsPlain (fun _ => 200) "http://h/demo-1.0.tar.gz" "x.json" none
      = Except.error ()
    ∧ run_uploads argsPlain (fun _ => 200) "http://h/demo-1.0.tar.gz"
        [("x.json", none), ("good.json", some reportJson)]
      = (Except.error (), []) :=
  spec_c1_parse_failure_aborts argsPlain (fun _ => 200) "http://h/demo-1.0.tar.gz"
    "x.json" [("good.json", some reportJson)]

/-- Counterexample to C2 as stated: an HTTP 201 response — a 200-class
status — does not yield the posted outcome but the failed one, and the
diagnostic `hub.error` emits names only the file and the target URL, with
no trace of the HTTP status code. -/
theorem spec_c2_status_cex :
    outcomeOf (upload_result argsPlain (fun _ => 201) "http://h/demo-1.0.tar.gz#sha256=aa"
        "r.json" (some reportJson))
      = some UploadOutcome.failed
    ∧ some UploadOutcome.failed ≠ some UploadOutcome.posted
    ∧ diagsOf (upload_result argsPlain (fun _ => 201) "http://h/demo-1.0.tar.gz#sha256=aa"
        "r.json" (some reportJson))
      = some [Diag.err "Could not post tox report 'r.json' to 'http://h/demo-1.0.tar.gz'"] :=
  ⟨rfl, by decide, rfl⟩

/-- C2 amended: for a non-simulated upload of a parsed report, a response
with status code exactly 200 yields the posted outcome and any other
status code — including other 2xx codes — yields the failed outcome; the
failure diagnostic names the report file and the fragment-stripped target
URL but not the HTTP status; the call returns normally either way, so
subsequent reports keep being processed. -/
theorem spec_c2_status_handling (args : HubArgs) (respond : NetCall → Nat)
    (url fname : String) (j : Json) (hs : args.simulate = false) :
    outcomeOf (upload_result args respond url fname (some j))
      = some (if respond ⟨"post", url_nofrag url, j⟩ = 200 then UploadOutcome.posted
          else UploadOutcome.failed)
    ∧ (respond ⟨"post", url_nofrag url, j⟩ ≠ 200 →
        diagsOf (upload_result args respond url fname (some j))
          = some ((if args.verbose ≠ 0 then
              [Diag.info ("Posting tox report '" ++ fname ++ "' to sdist")] else [])
            ++ [Diag.err ("Could not post tox report '" ++ fname ++ "' to '"
                  ++ url_nofrag url ++ "'")]))
    ∧ ∃ r, upload_result args respond url fname (some j) = Except.ok r
        ∧ ∀ rest, run_uploads args respond url ((fname, some j) :: rest)
            = ((run_uploads args respond url rest).1.map (fun rs => r :: rs),
               r.calls ++ (run_uploads args respond url rest).2) := by
  refine ⟨?_, ?_, ?_⟩
  · by_cases hr : respond ⟨"post", url_nofrag url, j⟩ = 200 <;>
      simp [upload_result, outcomeOf, hs, hr]
  · intro hr
    simp [upload_result, diagsOf, hs, hr]
  · have hok : ∃ r, upload_result args respond url fname (some j) = Except.ok r := by
      by_cases hr : respond ⟨"post", url_nofrag url, j⟩ = 200 <;>
        simp [upload_result, hs, hr]
    obtain ⟨r, hokr⟩ := hok
    refine ⟨r, hokr, fun rest => ?_⟩
    simp [run_uploads, hokr]

/-- Witness for C2 (amended): a 503 response at a concrete input gives the
failed outcome with the expected diagnostic, without aborting the batch. -/
theorem spec_c2_status_handling_witness :
    outcomeOf (upload_result argsPlain (fun _ => 503) "http://h/demo-1.0.tar.gz"
        "r.json" (some reportJson))
      = some UploadOutcome.failed
    ∧ diagsOf (upload_result argsPlain (fun _ => 503) "http://h/demo-1.0.tar.gz"
        "r.json" (some reportJson))
      = some [Diag.err "Could not post tox report 'r.json' to 'http://h/demo-1.0.tar.gz'"]
    ∧ (run_uploads argsPlain (fun _ => 503) "http://h/demo-1.0.tar.gz"
        [("r.json", some reportJson)]).1 ≠ Except.error () := by
  have h := spec_c2_status_handling argsPlain (fun _ => 503) "http://h/demo-1.0.tar.gz"
    "r.json" reportJson rfl
  refine ⟨?_, ?_, ?_⟩
  · rw [h.1]
    decide
  · have h2 := h.2.1 (by decide)
    rw [h2]
    rfl
  · obtain ⟨r, _, hrun⟩ := h.2.2
    rw [hrun []]
    simp [run_uploads, Except.map]

/-- C5: with `--dry-run`, `upload_result` still reads and parses the
report (a read or parse failure raises even under simulation, so data
errors surface), makes zero network calls and returns the
simulated-skip outcome; the same report without `--dry-run` produces
exactly one POST, to the fragment-stripped artifact URL, carrying the
parsed document. -/
theorem spec_c5_dry_run (args argsLive : HubArgs) (respond : NetCall → Nat)
    (url fname : String) (j : Json)
    (hsim : args.simulate = true) (hlive : argsLive.simulate = false) :
    outcomeOf (upload_result args respond url fname (some j))
      = some UploadOutcome.skippedSimulated
    ∧ callsOf (upload_result args respond url fname (some j)) = some []
    ∧ upload_result args respond url fname none = Except.error ()
    ∧ callsOf (upload_result argsLive respond url fname (some j))
      = some [⟨"post", url_nofrag url, j⟩] := by
  refine ⟨?_, ?_, rfl, ?_⟩
  · simp [upload_result, outcomeOf, hsim]
  · simp [upload_result, callsOf, hsim]
  · by_cases hr : respond ⟨"post", url_nofrag url, j⟩ = 200 <;>
      simp [upload_result, callsOf, hlive, hr]

/-- Simulated (dry-run) variant of the plain argument namespace; `main`
additionally bumps verbosity for `--dry-run`, reflected here. -/
def argsDry : HubArgs :=
  { verbose := 1, simulate := true, recursive := false, index := none, pkgspec := "demo" }

/-- Witness for C5 at a concrete report and artifact. -/
theorem spec_c5_dry_run_witness :
    outcomeOf (upload_result argsDry (fun _ => 200) "http://h/demo-1.0.tar.gz#sha256=aa"
        "a.json" (some reportJson))
      = some UploadOutcome.skippedSimulated
    ∧ callsOf (upload_result argsDry (fun _ => 200) "http://h/demo-1.0.tar.gz#sha256=aa"
        "a.json" (some reportJson)) = some []
    ∧ upload_result argsDry (fun _ => 200) "http://h/demo-1.0.tar.gz#sha256=aa"
        "a.json" none = Except.error ()
    ∧ callsOf (upload_result argsPlain (fun _ => 200) "http://h/demo-1.0.tar.gz#sha256=aa"
        "a.json" (some reportJson))
      = some [⟨"post", "http://h/demo-1.0.tar.gz", reportJson⟩] := by
  have h := spec_c5_dry_run argsDry argsPlain (fun _ => 200)
    "http://h/demo-1.0.tar.gz#sha256=aa" "a.json" reportJson rfl rfl
  refine ⟨h.1, h.2.1, h.2.2.1, ?_⟩
  rw [h.2.2.2]
  rfl
